import Mathlib

/-!
Verification of the deployment reconciliation engine of the `zipper` tool.

The definitions below are shallow embeddings of the TypeScript sources
(`src/remote-ftp.ts`, `src/remote-sftp.ts`, `src/remote-ssh.ts`,
`src/remote.ts`, `shell/upload.sh`, `shell/restore.sh`).  File contents and
network behaviour are abstracted away: a deployment run is modelled by the
reconciliation plan it computes from the local file list, the remote tree
listing and the preserve rules, together with the ordered list of remote
filesystem calls it issues.
-/

namespace Zipper

/-! The JavaScript string primitives the transports rely on are
re-expressed over the character lists underlying `String`, with the same
semantics, so that every definition evaluates by kernel reduction. -/

/-- `s.startsWith(p)`. -/
def strStartsWith (s p : String) : Bool := p.data.isPrefixOf s.data

/-- `s.endsWith(p)`. -/
def strEndsWith (s p : String) : Bool := p.data.isSuffixOf s.data

/-- `s.split(sep)` for a one-character separator. -/
def splitCharAux (sep : Char) : List Char → List Char → List String
  | [], acc => [String.mk acc.reverse]
  | c :: cs, acc =>
    if c = sep then String.mk acc.reverse :: splitCharAux sep cs []
    else splitCharAux sep cs (c :: acc)

def splitChar (sep : Char) (s : String) : List String := splitCharAux sep s.data []

/-- `s.replaceAll("\\", "/")`. -/
def toSlashes (s : String) : String :=
  String.mk (s.data.map (fun c => if c = '\\' then '/' else c))

/-- `s.trim()`. -/
def strTrim (s : String) : String :=
  String.mk ((s.data.dropWhile Char.isWhitespace).reverse.dropWhile Char.isWhitespace).reverse

/-- `s.toLowerCase()`. -/
def lowerStr (s : String) : String := String.mk (s.data.map Char.toLower)

/-- `normalizeRel` from the transports:
`p.replaceAll("\\", "/").replace(/^\.?\//, "")` — convert backslashes to
forward slashes, then strip one leading `./` or `/`. -/
def normalizeRel (p : String) : String :=
  let q := toSlashes p
  if strStartsWith q "./" then String.mk (q.data.drop 2)
  else if strStartsWith q "/" then String.mk (q.data.drop 1)
  else q

/-- Strip every trailing `/` (the `replace(/\/+$/, "")` step of
`isPreserveMatch`). -/
def stripTrailingSlashes (s : String) : String :=
  String.mk (s.data.reverse.dropWhile (fun c => c = '/')).reverse

/-- `isPreserveMatch(rel, preserve)` (named `preserveMatch` in the SFTP
transport, identical code): a rule ending in `/` is a directory prefix,
otherwise it requires exact equality. -/
def isPreserveMatch (rel preserve : String) : Bool :=
  if strEndsWith preserve "/" then
    strStartsWith rel (stripTrailingSlashes preserve ++ "/")
  else rel == preserve

/-- `isPreservedRel`: any rule matches. -/
def isPreservedRel (preserves : List String) (rel : String) : Bool :=
  preserves.any (fun p => isPreserveMatch rel p)

/-- `path.posix.dirname` restricted to the slash-separated relative and
absolute paths produced by the transports (no trailing slashes). -/
def posixDirname (p : String) : String :=
  match (splitChar '/' p).dropLast with
  | [] => "."
  | [""] => "/"
  | ps => String.intercalate "/" ps

/-- `joinRemote(baseAbs, rel)`: `path.posix.join` for an absolute base
without trailing slash and a nonempty relative path. -/
def joinRemote (base rel : String) : String :=
  base ++ "/" ++ rel

/-- One file of the remote tree listing (`{ rel, size }`). -/
structure RemoteFile where
  rel : String
  size : Nat
  deriving DecidableEq, Repr

/-- Result of `listRemoteTree`: files and directories, relative to the
webroot. -/
structure RemoteTree where
  files : List RemoteFile
  dirs : List String
  deriving DecidableEq, Repr

/-- The reconciliation plan computed identically by `uploadViaFTP`,
`restoreViaFTP`, `uploadViaSFTP` and `restoreViaSFTP`:

* `localNonPreserve = localFiles.filter(f => !isPreservedRel(f))`
* `localPreserve    = localFiles.filter(f => isPreservedRel(f))`
* `remoteNonPreserve = remoteTree.files.filter(f => !isPreservedRel(f.rel))`
* `toDelete = remoteNonPreserve.filter(x => !localNonPreserveSet.has(x.rel)).map(x => x.rel)`
* Phase A uploads all of `localNonPreserve`;
* Phase B uploads `newPreserve = localPreserve.filter(rel => !remoteFilesSet.has(rel))`
  where `remoteFilesSet` is the set of ALL remote files. -/
structure Plan where
  toDelete : List String
  phaseA : List String
  phaseB : List String
  deriving DecidableEq, Repr

def computePlan (preserves localFiles : List String) (remote : RemoteTree) : Plan :=
  let isP := isPreservedRel preserves
  let localNonPreserve := localFiles.filter (fun f => !(isP f))
  let localPreserve := localFiles.filter (fun f => isP f)
  let remoteFilesSet := remote.files.map (·.rel)
  let remoteNonPreserve := remote.files.filter (fun f => !(isP f.rel))
  let toDelete :=
    (remoteNonPreserve.filter (fun x => !(localNonPreserve.contains x.rel))).map (·.rel)
  let newPreserve := localPreserve.filter (fun rel => !(remoteFilesSet.contains rel))
  ⟨toDelete, localNonPreserve, newPreserve⟩

/-- A remote-filesystem call issued by a transport.  `put` keeps only the
remote destination path (the local source path plays no role in the
claims).  `ensureDir` stands for the idempotent recursive directory
creation capability (`client.ensureDir` on FTP, `ensureDirAbs` on SFTP,
whose per-segment `mkdir` calls are collapsed into the one capability
call). -/
inductive RemoteOp where
  | connect
  | ensureDir (p : String)
  | cd (p : String)
  | listDir (p : String)
  | fileGet (p : String)
  | remove (p : String)
  | removeDir (p : String)
  | put (p : String)
  | close
  deriving DecidableEq, Repr

def RemoteOp.isPut : RemoteOp → Bool
  | .put _ => true
  | _ => false

def RemoteOp.isRemove : RemoteOp → Bool
  | .remove _ => true
  | _ => false

def RemoteOp.isRemoveDir : RemoteOp → Bool
  | .removeDir _ => true
  | _ => false

def RemoteOp.isEnsureDir : RemoteOp → Bool
  | .ensureDir _ => true
  | _ => false

/-- The calls the spec classes as mutating: put, delete, mkdir/ensureDir,
rmdir. -/
def RemoteOp.isMutating : RemoteOp → Bool
  | .ensureDir _ => true
  | .remove _ => true
  | .removeDir _ => true
  | .put _ => true
  | _ => false

/-- Insertion sort by string length, descending: the transports sort the
prune candidates with `.sort((a, b) => b.length - a.length)`. -/
def insertByLenDesc (x : String) : List String → List String
  | [] => [x]
  | y :: ys => if y.length < x.length then x :: y :: ys else y :: insertByLenDesc x ys

def sortByLenDesc (xs : List String) : List String :=
  xs.foldr insertByLenDesc []

/-- Per-file upload calls of the FTP worker (`uploadMany` body): in a dry
run only a line is printed; otherwise the parent directory is ensured
(when it is neither empty nor `"."`) and the file is uploaded with
`uploadFrom`. -/
def ftpUploadOpsFor (dryRun : Bool) (rel : String) : List RemoteOp :=
  if dryRun then []
  else
    let dirRel := posixDirname rel
    (if dirRel ≠ "" ∧ dirRel ≠ "." then [RemoteOp.ensureDir dirRel] else []) ++
      [RemoteOp.put rel]

/-- Per-file upload calls of the SFTP worker (`uploadManySftp` body):
`ensureDirAbs(sftp, remoteDir)` then `fastPut(local, remote)`; paths are
absolute (joined onto the webroot). -/
def sftpUploadOpsFor (webroot : String) (dryRun : Bool) (rel : String) : List RemoteOp :=
  if dryRun then []
  else
    [RemoteOp.ensureDir (posixDirname (joinRemote webroot rel)),
     RemoteOp.put (joinRemote webroot rel)]

/-- The ordered remote-filesystem calls of `uploadViaFTP` after the
confirmation gate.  `emptyAfter d` abstracts the outcome of the fresh
`client.list(d)` issued during pruning (`true` iff the listing comes back
empty, in which case `removeDir` is called). -/
def uploadViaFTPOps (webroot : String) (preserves localFiles : List String)
    (remote : RemoteTree) (dryRun : Bool) (emptyAfter : String → Bool) : List RemoteOp :=
  let plan := computePlan preserves localFiles remote
  let deletes := if dryRun then [] else plan.toDelete.map RemoteOp.remove
  let phaseAOps := plan.phaseA.flatMap (ftpUploadOpsFor dryRun)
  let phaseBOps := plan.phaseB.flatMap (ftpUploadOpsFor dryRun)
  let pruneDirs :=
    sortByLenDesc (remote.dirs.filter (fun d => !(isPreservedRel preserves (d ++ "/"))))
  let pruneOps :=
    if dryRun then []
    else pruneDirs.flatMap (fun d =>
      RemoteOp.listDir d :: (if emptyAfter d then [RemoteOp.removeDir d] else []))
  [RemoteOp.connect, RemoteOp.ensureDir webroot, RemoteOp.cd webroot] ++
    deletes ++ phaseAOps ++ phaseBOps ++ pruneOps ++ [RemoteOp.close]

/-- The ordered remote-filesystem calls of `uploadViaSFTP` after the
confirmation gate.  SFTP pruning attempts `rmdir` on every non-preserved
directory deepest-first, swallowing failures, with no emptiness
pre-check. -/
def uploadViaSFTPOps (webroot : String) (preserves localFiles : List String)
    (remote : RemoteTree) (dryRun : Bool) : List RemoteOp :=
  let plan := computePlan preserves localFiles remote
  let deletes :=
    if dryRun then []
    else plan.toDelete.map (fun rel => RemoteOp.remove (joinRemote webroot rel))
  let phaseAOps := plan.phaseA.flatMap (sftpUploadOpsFor webroot dryRun)
  let phaseBOps := plan.phaseB.flatMap (sftpUploadOpsFor webroot dryRun)
  let pruneDirs :=
    sortByLenDesc (remote.dirs.filter (fun d => !(isPreservedRel preserves (d ++ "/"))))
  let pruneOps :=
    if dryRun then []
    else pruneDirs.map (fun d => RemoteOp.removeDir (joinRemote webroot d))
  [RemoteOp.connect, RemoteOp.ensureDir webroot] ++
    deletes ++ phaseAOps ++ phaseBOps ++ pruneOps ++ [RemoteOp.close]

/-- The ordered remote-filesystem calls of `restoreViaFTP` after the
confirmation gate (same as the upload flow without the pruning pass). -/
def restoreViaFTPOps (webroot : String) (preserves localFiles : List String)
    (remote : RemoteTree) (dryRun : Bool) : List RemoteOp :=
  let plan := computePlan preserves localFiles remote
  let deletes := if dryRun then [] else plan.toDelete.map RemoteOp.remove
  let phaseAOps := plan.phaseA.flatMap (ftpUploadOpsFor dryRun)
  let phaseBOps := plan.phaseB.flatMap (ftpUploadOpsFor dryRun)
  [RemoteOp.connect, RemoteOp.ensureDir webroot, RemoteOp.cd webroot] ++
    deletes ++ phaseAOps ++ phaseBOps ++ [RemoteOp.close]

/-- The remote-filesystem calls of `restoreViaSFTP` issued after the
confirmation gate (the connection itself is opened earlier, see
`restoreViaSFTPRun`). -/
def restoreViaSFTPBodyOps (webroot : String) (preserves localFiles : List String)
    (remote : RemoteTree) (dryRun : Bool) : List RemoteOp :=
  let plan := computePlan preserves localFiles remote
  let deletes :=
    if dryRun then []
    else plan.toDelete.map (fun rel => RemoteOp.remove (joinRemote webroot rel))
  let phaseAOps := plan.phaseA.flatMap (sftpUploadOpsFor webroot dryRun)
  let phaseBOps := plan.phaseB.flatMap (sftpUploadOpsFor webroot dryRun)
  [RemoteOp.ensureDir webroot] ++ deletes ++ phaseAOps ++ phaseBOps ++ [RemoteOp.close]

/-- The remote file set after a successful run, as relative paths:
survivors of Phase A deletion plus everything uploaded in Phase A and
Phase B (membership is what matters; duplicates are harmless). -/
def remoteAfterRun (preserves localFiles : List String) (remote : RemoteTree) : List String :=
  let plan := computePlan preserves localFiles remote
  ((remote.files.map (·.rel)).filter (fun r => !(plan.toDelete.contains r))) ++
    plan.phaseA ++ plan.phaseB

/-! ## Confirmation gate and run wrappers -/

inductive ConfirmMode where
  | auto
  | always
  | never
  deriving DecidableEq, Repr

/-- `/^(y|yes)$/i.test(ans.trim())`. -/
def answerIsYes (ans : String) : Bool :=
  let t := lowerStr (strTrim ans)
  t == "y" || t == "yes"

/-- `maybeConfirm` (identical in the FTP and SFTP transports):
`never` proceeds at once; a non-interactive session without `--yes`
throws; an interactive session prompts when the mode is `always`, or
`auto` without `--yes`, and aborts unless the answer matches y/yes.
Returns whether a prompt was shown. -/
def maybeConfirm (confirm : ConfirmMode) (interactive yes : Bool) (ans : String) :
    Except String Bool :=
  if confirm == ConfirmMode.never then Except.ok false
  else if !interactive && !yes then
    Except.error "Non-interactive session. Pass --yes (or YES=1) to proceed."
  else if interactive &&
      (confirm == ConfirmMode.always || (confirm == ConfirmMode.auto && !yes)) then
    if answerIsYes ans then Except.ok true else Except.error "Aborted by user."
  else Except.ok false

/-- Outcome of a whole run: the remote calls issued, and the error that
interrupted it, if any. -/
structure RunResult where
  ops : List RemoteOp
  err : Option String
  deriving DecidableEq, Repr

/-- `uploadViaFTP`: the gate runs before the client is even created, so a
gate failure issues no remote call at all. -/
def uploadViaFTPRun (confirm : ConfirmMode) (interactive yes : Bool) (ans : String)
    (webroot : String) (preserves localFiles : List String) (remote : RemoteTree)
    (dryRun : Bool) (emptyAfter : String → Bool) : RunResult :=
  match maybeConfirm confirm interactive yes ans with
  | Except.error e => ⟨[], some e⟩
  | Except.ok _ =>
    ⟨uploadViaFTPOps webroot preserves localFiles remote dryRun emptyAfter, none⟩

/-- `restoreViaFTP`: gate before connection, like the upload flow. -/
def restoreViaFTPRun (confirm : ConfirmMode) (interactive yes : Bool) (ans : String)
    (webroot : String) (preserves localFiles : List String) (remote : RemoteTree)
    (dryRun : Bool) : RunResult :=
  match maybeConfirm confirm interactive yes ans with
  | Except.error e => ⟨[], some e⟩
  | Except.ok _ => ⟨restoreViaFTPOps webroot preserves localFiles remote dryRun, none⟩

/-- `uploadViaSFTP`: gate before `sftp.connect`. -/
def uploadViaSFTPRun (confirm : ConfirmMode) (interactive yes : Bool) (ans : String)
    (webroot : String) (preserves localFiles : List String) (remote : RemoteTree)
    (dryRun : Bool) : RunResult :=
  match maybeConfirm confirm interactive yes ans with
  | Except.error e => ⟨[], some e⟩
  | Except.ok _ => ⟨uploadViaSFTPOps webroot preserves localFiles remote dryRun, none⟩

/-- `restoreViaSFTP`: the function connects FIRST (and, when restoring
from a remote backup directory, lists it and downloads the chosen
archive with `fastGet`), extracts the archive, and only then calls
`maybeConfirm`; the webroot is ensured after the gate. -/
def restoreViaSFTPRun (confirm : ConfirmMode) (interactive yes : Bool) (ans : String)
    (useRemoteBackup : Bool) (backupDir backupFile : String)
    (webroot : String) (preserves localFiles : List String) (remote : RemoteTree)
    (dryRun : Bool) : RunResult :=
  let pre := RemoteOp.connect ::
    (if useRemoteBackup then [RemoteOp.listDir backupDir, RemoteOp.fileGet backupFile]
     else [])
  match maybeConfirm confirm interactive yes ans with
  | Except.error e => ⟨pre, some e⟩
  | Except.ok _ =>
    ⟨pre ++ restoreViaSFTPBodyOps webroot preserves localFiles remote dryRun, none⟩

/-! ## Webroot resolution -/

/-- `deriveDefaultWebroot` in `remote-ftp.ts`:
`const u = (user || "user").trim(); return "/home/" + u + "/web/" + domain + "/public_html"`. -/
def deriveDefaultWebrootFTP (user domain : String) : String :=
  let u := strTrim (if user = "" then "user" else user)
  "/home/" ++ u ++ "/web/" ++ domain ++ "/public_html"

/-- `deriveDefaultWebroot` in `remote-sftp.ts`. -/
def deriveDefaultWebrootSFTP (user domain : String) : String :=
  "/home/" ++ user ++ "/web/" ++ domain ++ "/public_html"

/-- The shell scripts set `WEBROOT` from the environment, substituting
`/home/USER/web/DOMAIN/public_html` via `:-` (which applies when the
variable is unset or empty). -/
def shellWebroot (webrootEnv : Option String) (user domain : String) : String :=
  match webrootEnv with
  | some w => if w = "" then "/home/" ++ user ++ "/web/" ++ domain ++ "/public_html" else w
  | none => "/home/" ++ user ++ "/web/" ++ domain ++ "/public_html"

/-- The webroot resolution performed at the top of `uploadViaFTP` and
`restoreViaFTP`:
`webroot ?? (domain ? deriveDefaultWebroot(user, domain) : undefined)`,
throwing when neither is available.  `none` stands for an
absent-or-empty (falsy) value. -/
def ftpResolveWebroot (webroot : Option String) (user : String) (domain : Option String) :
    Except String String :=
  match webroot.orElse (fun _ => domain.map (deriveDefaultWebrootFTP user)) with
  | some w => Except.ok w
  | none =>
    Except.error
      "webroot not provided and cannot derive it: set either webroot or domain in your config."

/-- Same resolution in `uploadViaSFTP` / `restoreViaSFTP`. -/
def sftpResolveWebroot (webroot : Option String) (user : String) (domain : Option String) :
    Except String String :=
  match webroot.orElse (fun _ => domain.map (deriveDefaultWebrootSFTP user)) with
  | some w => Except.ok w
  | none =>
    Except.error
      "Missing webroot. Provide --webroot or --domain (to derive /home/<user>/web/<domain>/public_html)."

/-- `autoWebroot(user, domain)` of the CLI layer (`remote.ts`): applied
to the FTP and SFTP commands as the last fallback when neither the flag
nor the target config supplies a webroot. -/
def autoWebroot (user domain : Option String) : Option String :=
  match user, domain with
  | some u, some d =>
    if u = "" || d = "" then none
    else some ("/home/" ++ u ++ "/web/" ++ d ++ "/public_html")
  | _, _ => none

/-! ## Upload concurrency -/

/-- `uploadMany`/`uploadManySftp` pool bound:
`Math.max(1, Math.min(16, opts.concurrency | 0))`. -/
def uploadManyLimit (concurrency : Int) : Int :=
  max 1 (min 16 concurrency)

/-- `uploadViaFTP` passes `effConc = 1` to `uploadMany` in Phase A and
Phase B, regardless of the configured concurrency (printing
"(FTP) concurrency > 1 requested; clamped to 1"). -/
def ftpEffConc : Int := 1

def ftpPoolLimit (_configured : Int) : Int :=
  uploadManyLimit ftpEffConc

/-- `uploadViaSFTP` passes the configured concurrency straight to
`uploadManySftp`. -/
def sftpPoolLimit (configured : Int) : Int :=
  uploadManyLimit configured

/-! ## Preserve-rule defaults -/

/-- The default preserve list, shared by every transport. -/
def defaultPreservePaths : List String :=
  ["uploads/", "storage/", ".well-known/", "robots.txt"]

/-- The destructuring default
`preservePaths = ["uploads/", "storage/", ".well-known/", "robots.txt"]`
applied identically in `uploadViaFTP`, `restoreViaFTP`, `uploadViaSFTP`
and `restoreViaSFTP` when the option is absent. -/
def effectivePreservePaths (preservePaths : Option (List String)) : List String :=
  preservePaths.getD defaultPreservePaths

/-- The shell scripts' defaulting: when `PRESERVE_NL` is unset or empty,
`PRESERVE_PATHS` falls back to the same four entries, else it is the
newline-split of `PRESERVE_NL`.  (`uploadViaSSH` passes an empty
`PRESERVE_NL` when no preserve paths are configured, so the script
default applies.) -/
def shellPreservePaths (preserveNL : Option String) : List String :=
  let s := preserveNL.getD ""
  if s ≠ "" then splitChar '\n' s else defaultPreservePaths

/-! ## Shell-transport rollback (upload.sh) -/

/-- A remote shell action issued over SSH by the deploy script. -/
inductive ShellOp where
  | move (src dst : String)
  | makeDir (p : String)
  | tarExtract (archive destDir : String)
  | removeTree (p : String)
  | removeFile (p : String)
  deriving DecidableEq, Repr

/-- `${WEBROOT%/*}`: strip the shortest trailing `/component`. -/
def shellStripLast (p : String) : String :=
  let parts := splitChar '/' p
  if parts.length ≤ 1 then p else String.intercalate "/" parts.dropLast

/-- `FAILED_DIR="${WEBROOT%/*}/public_html.failed-${RELEASE_ID}"`. -/
def failedDir (webroot releaseId : String) : String :=
  shellStripLast webroot ++ "/public_html.failed-" ++ releaseId

/-- The `rollback` function of the deploy script:
`mv WEBROOT FAILED_DIR && mkdir -p "${WEBROOT%/*}" && tar -C "${WEBROOT%/*}" -xzf BACKUP_PATH`,
then `rm -rf FAILED_DIR` unless `KEEP_FAILED_DIR=1`. -/
def rollbackOps (webroot backupPath releaseId : String) (keepFailedDir : Bool) :
    List ShellOp :=
  [ShellOp.move webroot (failedDir webroot releaseId),
   ShellOp.makeDir (shellStripLast webroot),
   ShellOp.tarExtract backupPath (shellStripLast webroot)] ++
    (if keepFailedDir then [] else [ShellOp.removeTree (failedDir webroot releaseId)])

/-- The health-check dispatch at the end of the deploy script: skipped in
a dry run; on success, temp cleanup; on failure, `rollback` when
`ROLLBACK_ON_FAIL=1`, else nothing. -/
def postDeployOps (dryRun healthOk rollbackOnFail keepFailedDir : Bool)
    (webroot backupPath releaseId remoteZip filterRemote releaseDir : String) :
    List ShellOp :=
  if dryRun then []
  else if healthOk then
    [ShellOp.removeFile remoteZip, ShellOp.removeFile filterRemote,
     ShellOp.removeTree releaseDir]
  else if rollbackOnFail then rollbackOps webroot backupPath releaseId keepFailedDir
  else []

/-- Does some op rename a directory INTO `dst`? (used to state that the
rollback never renames anything back to the webroot path). -/
def movesInto (dst : String) (ops : List ShellOp) : Bool :=
  ops.any (fun op =>
    match op with
    | ShellOp.move _ d => d == dst
    | _ => false)

/-! ## Helper lemmas about the plan computation -/

theorem string_append_cancel_left {s t u : String} (h : s ++ t = s ++ u) : t = u := by
  have h1 : (s ++ t).data = (s ++ u).data := congrArg String.data h
  simp [String.data_append] at h1
  exact String.ext h1

theorem joinRemote_inj {w a b : String} (h : joinRemote w a = joinRemote w b) : a = b := by
  unfold joinRemote at h
  exact @string_append_cancel_left (w ++ "/") a b h

theorem map_rel_filter (q : String → Bool) (l : List RemoteFile) :
    (l.filter (fun x => q x.rel)).map (·.rel) = (l.map (·.rel)).filter q := by
  induction l with
  | nil => rfl
  | cons a t ih =>
    by_cases h : q a.rel = true <;> simp [List.filter_cons, h, ih]

theorem toDelete_eq (prs loc : List String) (rt : RemoteTree) :
    (computePlan prs loc rt).toDelete =
      (rt.files.map (·.rel)).filter
        (fun r => !((loc.filter (fun f => !(isPreservedRel prs f))).contains r) &&
          !(isPreservedRel prs r)) := by
  show ((rt.files.filter _).filter _).map (·.rel) = _
  rw [List.filter_filter]
  exact map_rel_filter
    (fun r => !((loc.filter (fun f => !(isPreservedRel prs f))).contains r) &&
      !(isPreservedRel prs r)) rt.files

theorem mem_phaseA {prs loc : List String} {rt : RemoteTree} {f : String} :
    f ∈ (computePlan prs loc rt).phaseA ↔ f ∈ loc ∧ isPreservedRel prs f = false := by
  show f ∈ loc.filter _ ↔ _
  simp [List.mem_filter]

theorem mem_phaseB {prs loc : List String} {rt : RemoteTree} {p : String} :
    p ∈ (computePlan prs loc rt).phaseB ↔
      p ∈ loc ∧ isPreservedRel prs p = true ∧ p ∉ rt.files.map (·.rel) := by
  show p ∈ (loc.filter _).filter _ ↔ _
  simp [List.mem_filter, List.elem_iff]
  tauto

theorem mem_toDelete {prs loc : List String} {rt : RemoteTree} {r : String} :
    r ∈ (computePlan prs loc rt).toDelete ↔
      r ∈ rt.files.map (·.rel) ∧ isPreservedRel prs r = false ∧ r ∉ loc := by
  rw [toDelete_eq]
  simp [List.mem_filter, List.elem_iff]
  aesop

theorem mem_remoteAfterRun {prs loc : List String} {rt : RemoteTree} {r : String} :
    r ∈ remoteAfterRun prs loc rt ↔
      (r ∈ rt.files.map (·.rel) ∧ r ∉ (computePlan prs loc rt).toDelete) ∨
        r ∈ (computePlan prs loc rt).phaseA ∨ r ∈ (computePlan prs loc rt).phaseB := by
  unfold remoteAfterRun
  simp [List.mem_filter, List.elem_iff]

/-- After a successful run, nothing outside the preserve space remains to
be deleted: a second reconciliation computes an empty `toDelete`. -/
theorem secondRun_toDelete_nil {prs loc : List String} {rt rt₂ : RemoteTree}
    (h : ∀ r, r ∈ rt₂.files.map (·.rel) ↔ r ∈ remoteAfterRun prs loc rt) :
    (computePlan prs loc rt₂).toDelete = [] := by
  rw [List.eq_nil_iff_forall_not_mem]
  intro r hr
  rcases mem_toDelete.mp hr with ⟨hmem, hP, hloc⟩
  rcases mem_remoteAfterRun.mp ((h r).mp hmem) with ⟨hrel, hnd⟩ | hA | hB
  · exact hnd (mem_toDelete.mpr ⟨hrel, hP, hloc⟩)
  · exact hloc (mem_phaseA.mp hA).1
  · rw [(mem_phaseB.mp hB).2.1] at hP
    cases hP

/-- After a successful run, every locally-present preserved file exists
remotely, so a second reconciliation computes an empty Phase-B merge. -/
theorem secondRun_phaseB_nil {prs loc : List String} {rt rt₂ : RemoteTree}
    (h : ∀ r, r ∈ rt₂.files.map (·.rel) ↔ r ∈ remoteAfterRun prs loc rt) :
    (computePlan prs loc rt₂).phaseB = [] := by
  rw [List.eq_nil_iff_forall_not_mem]
  intro p hp
  rcases mem_phaseB.mp hp with ⟨hl, hP, habs⟩
  apply habs
  rw [h p, mem_remoteAfterRun]
  by_cases hrem : p ∈ rt.files.map (·.rel)
  · left
    refine ⟨hrem, fun hd => ?_⟩
    rw [(mem_toDelete.mp hd).2.1] at hP
    cases hP
  · right; right
    exact mem_phaseB.mpr ⟨hl, hP, hrem⟩

theorem toDelete_nodup {prs loc : List String} {rt : RemoteTree}
    (h : (rt.files.map (·.rel)).Nodup) : (computePlan prs loc rt).toDelete.Nodup := by
  rw [toDelete_eq]
  exact h.filter _

theorem phaseA_nodup {prs loc : List String} {rt : RemoteTree}
    (h : loc.Nodup) : (computePlan prs loc rt).phaseA.Nodup :=
  h.filter _

theorem phaseB_nodup {prs loc : List String} {rt : RemoteTree}
    (h : loc.Nodup) : (computePlan prs loc rt).phaseB.Nodup :=
  (h.filter _).filter _

/-! ## Helper lemmas about the call traces -/

theorem flatMap_eq_nil_of_forall {α β : Type} {l : List α} {f : α → List β}
    (h : ∀ a, f a = []) : l.flatMap f = [] := by
  induction l with
  | nil => rfl
  | cons a t ih => simp [List.flatMap_cons, h, ih]

theorem ftpUploadOpsFor_dry (rel : String) : ftpUploadOpsFor true rel = [] := rfl

theorem sftpUploadOpsFor_dry (w rel : String) : sftpUploadOpsFor w true rel = [] := rfl

/-- In a dry run the FTP upload flow issues only the connection setup
calls: `ensureDir`/`cd` on the webroot, then closes. -/
theorem uploadViaFTPOps_dry (w : String) (prs loc : List String) (rt : RemoteTree)
    (e : String → Bool) :
    uploadViaFTPOps w prs loc rt true e =
      [RemoteOp.connect, RemoteOp.ensureDir w, RemoteOp.cd w, RemoteOp.close] := by
  unfold uploadViaFTPOps
  simp [flatMap_eq_nil_of_forall ftpUploadOpsFor_dry]

theorem uploadViaSFTPOps_dry (w : String) (prs loc : List String) (rt : RemoteTree) :
    uploadViaSFTPOps w prs loc rt true =
      [RemoteOp.connect, RemoteOp.ensureDir w, RemoteOp.close] := by
  unfold uploadViaSFTPOps
  simp [flatMap_eq_nil_of_forall (sftpUploadOpsFor_dry w)]

theorem restoreViaFTPOps_dry (w : String) (prs loc : List String) (rt : RemoteTree) :
    restoreViaFTPOps w prs loc rt true =
      [RemoteOp.connect, RemoteOp.ensureDir w, RemoteOp.cd w, RemoteOp.close] := by
  unfold restoreViaFTPOps
  simp [flatMap_eq_nil_of_forall ftpUploadOpsFor_dry]

theorem restoreViaSFTPBodyOps_dry (w : String) (prs loc : List String) (rt : RemoteTree) :
    restoreViaSFTPBodyOps w prs loc rt true =
      [RemoteOp.ensureDir w, RemoteOp.close] := by
  unfold restoreViaSFTPBodyOps
  simp [flatMap_eq_nil_of_forall (sftpUploadOpsFor_dry w)]

theorem mem_ftpUploadOpsFor {dry : Bool} {rel : String} {op : RemoteOp}
    (h : op ∈ ftpUploadOpsFor dry rel) :
    op = RemoteOp.put rel ∨ op = RemoteOp.ensureDir (posixDirname rel) := by
  unfold ftpUploadOpsFor at h
  by_cases hd : dry = true
  · simp [hd] at h
  · simp [hd] at h
    tauto

theorem mem_sftpUploadOpsFor {w : String} {dry : Bool} {rel : String} {op : RemoteOp}
    (h : op ∈ sftpUploadOpsFor w dry rel) :
    op = RemoteOp.put (joinRemote w rel) ∨
      op = RemoteOp.ensureDir (posixDirname (joinRemote w rel)) := by
  unfold sftpUploadOpsFor at h
  by_cases hd : dry = true
  · simp [hd] at h
  · simp [hd] at h
    tauto

theorem put_mem_ftpUploadOpsFor {dry : Bool} {rel p : String} :
    RemoteOp.put p ∈ ftpUploadOpsFor dry rel ↔ dry = false ∧ p = rel := by
  unfold ftpUploadOpsFor
  cases dry
  · split <;> simp_all
  · simp

theorem put_mem_sftpUploadOpsFor {w : String} {dry : Bool} {rel q : String} :
    RemoteOp.put q ∈ sftpUploadOpsFor w dry rel ↔ dry = false ∧ q = joinRemote w rel := by
  unfold sftpUploadOpsFor
  cases dry <;> simp

theorem put_mem_flatMap_ftp {dry : Bool} {l : List String} {p : String} :
    RemoteOp.put p ∈ l.flatMap (ftpUploadOpsFor dry) ↔ dry = false ∧ p ∈ l := by
  simp only [List.mem_flatMap, put_mem_ftpUploadOpsFor]
  aesop

theorem put_mem_flatMap_sftp {w : String} {dry : Bool} {l : List String} {q : String} :
    RemoteOp.put q ∈ l.flatMap (sftpUploadOpsFor w dry) ↔
      dry = false ∧ ∃ rel ∈ l, q = joinRemote w rel := by
  simp only [List.mem_flatMap, put_mem_sftpUploadOpsFor]
  aesop

theorem put_not_mem_ftpPrune {prs : List String} {rt : RemoteTree}
    {e : String → Bool} {p : String} :
    RemoteOp.put p ∉
      (sortByLenDesc (rt.dirs.filter (fun d => !(isPreservedRel prs (d ++ "/"))))).flatMap
        (fun d => RemoteOp.listDir d :: (if e d then [RemoteOp.removeDir d] else [])) := by
  intro h
  rcases List.mem_flatMap.mp h with ⟨d, -, hd⟩
  rcases List.mem_cons.mp hd with h1 | h1
  · cases h1
  · split at h1 <;> simp at h1

/-- A `put` occurs in the FTP upload trace exactly for the Phase A and
Phase B files of the plan, and only in a real (non-dry) run. -/
theorem put_mem_uploadViaFTPOps {w : String} {prs loc : List String} {rt : RemoteTree}
    {dry : Bool} {e : String → Bool} {p : String} :
    RemoteOp.put p ∈ uploadViaFTPOps w prs loc rt dry e ↔
      dry = false ∧
        (p ∈ (computePlan prs loc rt).phaseA ∨ p ∈ (computePlan prs loc rt).phaseB) := by
  cases dry
  · unfold uploadViaFTPOps
    simp [put_mem_ftpUploadOpsFor, put_not_mem_ftpPrune]
  · rw [uploadViaFTPOps_dry]
    simp

/-- A `put` occurs in the SFTP upload trace exactly for the Phase A and
Phase B files of the plan (rendered as absolute paths under the
webroot), and only in a real run. -/
theorem put_mem_uploadViaSFTPOps {w : String} {prs loc : List String} {rt : RemoteTree}
    {dry : Bool} {q : String} :
    RemoteOp.put q ∈ uploadViaSFTPOps w prs loc rt dry ↔
      dry = false ∧
        ∃ rel, (rel ∈ (computePlan prs loc rt).phaseA ∨
          rel ∈ (computePlan prs loc rt).phaseB) ∧ q = joinRemote w rel := by
  cases dry
  · unfold uploadViaSFTPOps
    simp [put_mem_sftpUploadOpsFor]
    aesop
  · rw [uploadViaSFTPOps_dry]
    simp

theorem put_mem_restoreViaFTPOps {w : String} {prs loc : List String} {rt : RemoteTree}
    {dry : Bool} {p : String} :
    RemoteOp.put p ∈ restoreViaFTPOps w prs loc rt dry ↔
      dry = false ∧
        (p ∈ (computePlan prs loc rt).phaseA ∨ p ∈ (computePlan prs loc rt).phaseB) := by
  cases dry
  · unfold restoreViaFTPOps
    simp [put_mem_ftpUploadOpsFor]
  · rw [restoreViaFTPOps_dry]
    simp

theorem put_mem_restoreViaSFTPBodyOps {w : String} {prs loc : List String}
    {rt : RemoteTree} {dry : Bool} {q : String} :
    RemoteOp.put q ∈ restoreViaSFTPBodyOps w prs loc rt dry ↔
      dry = false ∧
        ∃ rel, (rel ∈ (computePlan prs loc rt).phaseA ∨
          rel ∈ (computePlan prs loc rt).phaseB) ∧ q = joinRemote w rel := by
  cases dry
  · unfold restoreViaSFTPBodyOps
    simp [put_mem_sftpUploadOpsFor]
    aesop
  · rw [restoreViaSFTPBodyOps_dry]
    simp

/-- If a trace is a concatenation of a put-free prefix and a remove-free
suffix, every `remove` is issued strictly before every `put`. -/
theorem removes_before_puts_of_eq (T A B : List RemoteOp) (hT : T = A ++ B)
    (hA : ∀ op ∈ A, op.isPut = false) (hB : ∀ op ∈ B, op.isRemove = false) :
    ∀ i j (hi : i < T.length) (hj : j < T.length),
      (T.get ⟨i, hi⟩).isRemove = true → (T.get ⟨j, hj⟩).isPut = true → i < j := by
  subst hT
  intro i j hi hj hrem hput
  have hiA : i < A.length := by
    by_contra hge
    push_neg at hge
    have hlen : i < A.length + B.length := by simpa using hi
    have heq : (A ++ B).get ⟨i, hi⟩ = B.get ⟨i - A.length, by omega⟩ := by
      simp [List.getElem_append_right, hge]
    rw [heq, hB _ (List.get_mem _ _ _)] at hrem
    cases hrem
  have hjA : A.length ≤ j := by
    by_contra hlt
    push_neg at hlt
    have heq : (A ++ B).get ⟨j, hj⟩ = A.get ⟨j, hlt⟩ := by
      simp [List.getElem_append_left, hlt]
    rw [heq, hA _ (List.get_mem _ _ _)] at hput
    cases hput
  omega

theorem ftp_trace_split (w : String) (prs loc : List String) (rt : RemoteTree)
    (e : String → Bool) :
    uploadViaFTPOps w prs loc rt false e =
      ([RemoteOp.connect, RemoteOp.ensureDir w, RemoteOp.cd w] ++
        (computePlan prs loc rt).toDelete.map RemoteOp.remove) ++
      ((computePlan prs loc rt).phaseA.flatMap (ftpUploadOpsFor false) ++
        ((computePlan prs loc rt).phaseB.flatMap (ftpUploadOpsFor false) ++
          ((sortByLenDesc (rt.dirs.filter (fun d => !(isPreservedRel prs (d ++ "/"))))).flatMap
              (fun d => RemoteOp.listDir d :: (if e d then [RemoteOp.removeDir d] else [])) ++
            [RemoteOp.close]))) := by
  unfold uploadViaFTPOps
  simp [List.append_assoc]

theorem sftp_trace_split (w : String) (prs loc : List String) (rt : RemoteTree) :
    uploadViaSFTPOps w prs loc rt false =
      ([RemoteOp.connect, RemoteOp.ensureDir w] ++
        (computePlan prs loc rt).toDelete.map
          (fun rel => RemoteOp.remove (joinRemote w rel))) ++
      ((computePlan prs loc rt).phaseA.flatMap (sftpUploadOpsFor w false) ++
        ((computePlan prs loc rt).phaseB.flatMap (sftpUploadOpsFor w false) ++
          ((sortByLenDesc (rt.dirs.filter (fun d => !(isPreservedRel prs (d ++ "/"))))).map
              (fun d => RemoteOp.removeDir (joinRemote w d)) ++
            [RemoteOp.close]))) := by
  unfold uploadViaSFTPOps
  simp [List.append_assoc]

theorem remove_not_mem_ftpUploadOpsFor {dry : Bool} {rel r : String} :
    RemoteOp.remove r ∉ ftpUploadOpsFor dry rel := by
  intro h
  rcases mem_ftpUploadOpsFor h with h1 | h1 <;> cases h1

theorem remove_not_mem_sftpUploadOpsFor {w : String} {dry : Bool} {rel r : String} :
    RemoteOp.remove r ∉ sftpUploadOpsFor w dry rel := by
  intro h
  rcases mem_sftpUploadOpsFor h with h1 | h1 <;> cases h1

theorem remove_not_mem_ftpPrune {prs : List String} {rt : RemoteTree}
    {e : String → Bool} {r : String} :
    RemoteOp.remove r ∉
      (sortByLenDesc (rt.dirs.filter (fun d => !(isPreservedRel prs (d ++ "/"))))).flatMap
        (fun d => RemoteOp.listDir d :: (if e d then [RemoteOp.removeDir d] else [])) := by
  intro h
  rcases List.mem_flatMap.mp h with ⟨d, -, hd⟩
  rcases List.mem_cons.mp hd with h1 | h1
  · cases h1
  · split at h1 <;> simp at h1

theorem ftp_prefix_put_free (w : String) (l : List String) :
    ∀ op ∈ [RemoteOp.connect, RemoteOp.ensureDir w, RemoteOp.cd w] ++
        l.map RemoteOp.remove, op.isPut = false := by
  intro op hop
  cases op <;> simp_all [List.mem_append, List.mem_cons, List.mem_map, RemoteOp.isPut]

theorem sftp_prefix_put_free (w : String) (l : List String) :
    ∀ op ∈ [RemoteOp.connect, RemoteOp.ensureDir w] ++
        l.map (fun rel => RemoteOp.remove (joinRemote w rel)), op.isPut = false := by
  intro op hop
  cases op <;> simp_all [List.mem_append, List.mem_cons, List.mem_map, RemoteOp.isPut]

theorem ftp_suffix_remove_free (prs loc : List String) (rt : RemoteTree)
    (e : String → Bool) :
    ∀ op ∈ (computePlan prs loc rt).phaseA.flatMap (ftpUploadOpsFor false) ++
        ((computePlan prs loc rt).phaseB.flatMap (ftpUploadOpsFor false) ++
          ((sortByLenDesc (rt.dirs.filter (fun d => !(isPreservedRel prs (d ++ "/"))))).flatMap
              (fun d => RemoteOp.listDir d :: (if e d then [RemoteOp.removeDir d] else [])) ++
            [RemoteOp.close])), op.isRemove = false := by
  intro op hop
  cases op <;> try rfl
  rename_i r
  exfalso
  rcases List.mem_append.mp hop with h | h
  · rcases List.mem_flatMap.mp h with ⟨x, -, hx⟩
    exact remove_not_mem_ftpUploadOpsFor hx
  rcases List.mem_append.mp h with h | h
  · rcases List.mem_flatMap.mp h with ⟨x, -, hx⟩
    exact remove_not_mem_ftpUploadOpsFor hx
  rcases List.mem_append.mp h with h | h
  · exact remove_not_mem_ftpPrune h
  · simp at h

theorem sftp_suffix_remove_free (w : String) (prs loc : List String) (rt : RemoteTree) :
    ∀ op ∈ (computePlan prs loc rt).phaseA.flatMap (sftpUploadOpsFor w false) ++
        ((computePlan prs loc rt).phaseB.flatMap (sftpUploadOpsFor w false) ++
          ((sortByLenDesc (rt.dirs.filter (fun d => !(isPreservedRel prs (d ++ "/"))))).map
              (fun d => RemoteOp.removeDir (joinRemote w d)) ++
            [RemoteOp.close])), op.isRemove = false := by
  intro op hop
  cases op <;> try rfl
  rename_i r
  exfalso
  rcases List.mem_append.mp hop with h | h
  · rcases List.mem_flatMap.mp h with ⟨x, -, hx⟩
    exact remove_not_mem_sftpUploadOpsFor hx
  rcases List.mem_append.mp h with h | h
  · rcases List.mem_flatMap.mp h with ⟨x, -, hx⟩
    exact remove_not_mem_sftpUploadOpsFor hx
  rcases List.mem_append.mp h with h | h
  · rcases List.mem_map.mp h with ⟨d, -, hd⟩
    cases hd
  · simp at h

/-! ## Counting lemmas -/

theorem countP_put_ftpUploadOpsFor (rel : String) :
    (ftpUploadOpsFor false rel).countP RemoteOp.isPut = 1 := by
  unfold ftpUploadOpsFor
  simp only [Bool.false_eq_true, if_false]
  split <;> rfl

theorem countP_put_sftpUploadOpsFor (w rel : String) :
    (sftpUploadOpsFor w false rel).countP RemoteOp.isPut = 1 := rfl

theorem countP_put_flatMap_ftp (l : List String) :
    (l.flatMap (ftpUploadOpsFor false)).countP RemoteOp.isPut = l.length := by
  induction l with
  | nil => rfl
  | cons a t ih =>
    simp [List.flatMap_cons, List.countP_append, ih, countP_put_ftpUploadOpsFor a]
    omega

theorem countP_put_flatMap_sftp (w : String) (l : List String) :
    (l.flatMap (sftpUploadOpsFor w false)).countP RemoteOp.isPut = l.length := by
  induction l with
  | nil => rfl
  | cons a t ih =>
    simp [List.flatMap_cons, List.countP_append, ih, countP_put_sftpUploadOpsFor w a]
    omega

theorem countP_zero_of_forall {l : List RemoteOp} {p : RemoteOp → Bool}
    (h : ∀ op ∈ l, p op = false) : l.countP p = 0 :=
  List.countP_eq_zero.mpr (by simpa using h)

theorem countP_remove_flatMap_ftp (l : List String) :
    (l.flatMap (ftpUploadOpsFor false)).countP RemoteOp.isRemove = 0 := by
  refine countP_zero_of_forall (fun op hop => ?_)
  rcases List.mem_flatMap.mp hop with ⟨x, -, hx⟩
  rcases mem_ftpUploadOpsFor hx with h1 | h1 <;> subst h1 <;> rfl

theorem countP_remove_flatMap_sftp (w : String) (l : List String) :
    (l.flatMap (sftpUploadOpsFor w false)).countP RemoteOp.isRemove = 0 := by
  refine countP_zero_of_forall (fun op hop => ?_)
  rcases List.mem_flatMap.mp hop with ⟨x, -, hx⟩
  rcases mem_sftpUploadOpsFor hx with h1 | h1 <;> subst h1 <;> rfl

theorem countP_remove_map_remove (l : List String) :
    (l.map RemoteOp.remove).countP RemoteOp.isRemove = l.length := by
  induction l with
  | nil => rfl
  | cons a t ih => simp [List.countP_cons, ih, RemoteOp.isRemove]

theorem countP_remove_map_remove_join (w : String) (l : List String) :
    (l.map (fun rel => RemoteOp.remove (joinRemote w rel))).countP
      RemoteOp.isRemove = l.length := by
  induction l with
  | nil => rfl
  | cons a t ih => simp [List.countP_cons, ih, RemoteOp.isRemove]

theorem countP_put_map_remove (l : List String) :
    (l.map RemoteOp.remove).countP RemoteOp.isPut = 0 := by
  refine countP_zero_of_forall (fun op hop => ?_)
  rcases List.mem_map.mp hop with ⟨r, -, hr⟩
  subst hr
  rfl

theorem countP_put_map_remove_join (w : String) (l : List String) :
    (l.map (fun rel => RemoteOp.remove (joinRemote w rel))).countP RemoteOp.isPut = 0 := by
  refine countP_zero_of_forall (fun op hop => ?_)
  rcases List.mem_map.mp hop with ⟨r, -, hr⟩
  subst hr
  rfl

theorem countP_remove_ftpPrune (prs : List String) (rt : RemoteTree) (e : String → Bool) :
    ((sortByLenDesc (rt.dirs.filter (fun d => !(isPreservedRel prs (d ++ "/"))))).flatMap
        (fun d => RemoteOp.listDir d :: (if e d then [RemoteOp.removeDir d] else []))).countP
      RemoteOp.isRemove = 0 :=
  countP_zero_of_forall (fun _ hop => by
    rcases List.mem_flatMap.mp hop with ⟨d, -, hd⟩
    rcases List.mem_cons.mp hd with h1 | h1
    · subst h1; rfl
    · split at h1
      · simp at h1
        subst h1
        rfl
      · simp at h1)

theorem countP_put_ftpPrune (prs : List String) (rt : RemoteTree) (e : String → Bool) :
    ((sortByLenDesc (rt.dirs.filter (fun d => !(isPreservedRel prs (d ++ "/"))))).flatMap
        (fun d => RemoteOp.listDir d :: (if e d then [RemoteOp.removeDir d] else []))).countP
      RemoteOp.isPut = 0 :=
  countP_zero_of_forall (fun _ hop => by
    rcases List.mem_flatMap.mp hop with ⟨d, -, hd⟩
    rcases List.mem_cons.mp hd with h1 | h1
    · subst h1; rfl
    · split at h1
      · simp at h1
        subst h1
        rfl
      · simp at h1)

theorem countP_sftpPrune (w : String) (prs : List String) (rt : RemoteTree)
    (p : RemoteOp → Bool) (hp : ∀ q, p (RemoteOp.removeDir q) = false) :
    ((sortByLenDesc (rt.dirs.filter (fun d => !(isPreservedRel prs (d ++ "/"))))).map
        (fun d => RemoteOp.removeDir (joinRemote w d))).countP p = 0 :=
  countP_zero_of_forall (fun _ hop => by
    rcases List.mem_map.mp hop with ⟨d, -, hd⟩
    subst hd
    exact hp _)

/-- Counts of remote calls made by a real (non-dry) FTP upload run:
exactly one `delete` per `toDelete` entry and one `put` per Phase A /
Phase B file. -/
theorem ftp_real_run_counts (w : String) (prs loc : List String) (rt : RemoteTree)
    (e : String → Bool) :
    (uploadViaFTPOps w prs loc rt false e).countP RemoteOp.isRemove =
        (computePlan prs loc rt).toDelete.length ∧
      (uploadViaFTPOps w prs loc rt false e).countP RemoteOp.isPut =
        (computePlan prs loc rt).phaseA.length + (computePlan prs loc rt).phaseB.length := by
  rw [ftp_trace_split]
  constructor
  · simp [List.countP_append, countP_remove_map_remove, countP_remove_flatMap_ftp,
      countP_remove_ftpPrune, RemoteOp.isRemove]
  · simp [List.countP_append, countP_put_map_remove, countP_put_flatMap_ftp,
      countP_put_ftpPrune, RemoteOp.isPut]

/-- Counts of remote calls made by a real (non-dry) SFTP upload run. -/
theorem sftp_real_run_counts (w : String) (prs loc : List String) (rt : RemoteTree) :
    (uploadViaSFTPOps w prs loc rt false).countP RemoteOp.isRemove =
        (computePlan prs loc rt).toDelete.length ∧
      (uploadViaSFTPOps w prs loc rt false).countP RemoteOp.isPut =
        (computePlan prs loc rt).phaseA.length + (computePlan prs loc rt).phaseB.length := by
  rw [sftp_trace_split]
  constructor
  · simp [List.countP_append, countP_remove_map_remove_join, countP_remove_flatMap_sftp,
      countP_sftpPrune w prs rt RemoteOp.isRemove (fun _ => rfl), RemoteOp.isRemove]
  · simp [List.countP_append, countP_put_map_remove_join, countP_put_flatMap_sftp,
      countP_sftpPrune w prs rt RemoteOp.isPut (fun _ => rfl), RemoteOp.isPut]

theorem count_put_ftpUploadOpsFor (rel p : String) :
    (ftpUploadOpsFor false rel).count (RemoteOp.put p) = if p = rel then 1 else 0 := by
  unfold ftpUploadOpsFor
  simp only [Bool.false_eq_true, if_false]
  by_cases h : p = rel
  · subst h
    split <;> simp [List.count_append, List.count_singleton, List.count_cons]
  · split <;>
      simp [List.count_append, List.count_eq_zero, List.mem_cons, List.mem_singleton, h]

theorem count_put_flatMap_ftp (l : List String) (p : String) :
    (l.flatMap (ftpUploadOpsFor false)).count (RemoteOp.put p) = l.count p := by
  induction l with
  | nil => rfl
  | cons a t ih =>
    rw [List.flatMap_cons, List.count_append, ih, count_put_ftpUploadOpsFor,
      List.count_cons]
    by_cases h : p = a
    · simp [h]
      omega
    · simp [h, Ne.symm h]

/-! ## Claims -/

/-- C1: for every preserve-matching relative path `p` present in the
remote tree listing, a deploy or restore run never issues a `put` for
`p` — on FTP (relative paths) and SFTP (absolute paths under the
webroot) alike — regardless of the local release content or the dry-run
flag. -/
theorem C1_no_preserved_overwrite
    (w : String) (prs loc : List String) (rt : RemoteTree) (dry : Bool)
    (e : String → Bool) (p : String)
    (hP : isPreservedRel prs p = true) (hRem : p ∈ rt.files.map (·.rel)) :
    RemoteOp.put p ∉ uploadViaFTPOps w prs loc rt dry e ∧
      RemoteOp.put (joinRemote w p) ∉ uploadViaSFTPOps w prs loc rt dry ∧
      RemoteOp.put p ∉ restoreViaFTPOps w prs loc rt dry ∧
      RemoteOp.put (joinRemote w p) ∉ restoreViaSFTPBodyOps w prs loc rt dry := by
  have hA : p ∉ (computePlan prs loc rt).phaseA := fun h => by
    rw [(mem_phaseA.mp h).2] at hP
    cases hP
  have hB : p ∉ (computePlan prs loc rt).phaseB := fun h => (mem_phaseB.mp h).2.2 hRem
  have habs : ∀ rel, (rel ∈ (computePlan prs loc rt).phaseA ∨
      rel ∈ (computePlan prs loc rt).phaseB) → ¬(joinRemote w p = joinRemote w rel) := by
    intro rel hrel heq
    cases joinRemote_inj heq
    rcases hrel with h | h
    exacts [hA h, hB h]
  refine ⟨fun h => ?_, fun h => ?_, fun h => ?_, fun h => ?_⟩
  · rcases (put_mem_uploadViaFTPOps.mp h).2 with h1 | h1
    exacts [hA h1, hB h1]
  · rcases (put_mem_uploadViaSFTPOps.mp h).2 with ⟨rel, hrel, heq⟩
    exact habs rel hrel heq
  · rcases (put_mem_restoreViaFTPOps.mp h).2 with h1 | h1
    exacts [hA h1, hB h1]
  · rcases (put_mem_restoreViaSFTPBodyOps.mp h).2 with ⟨rel, hrel, heq⟩
    exact habs rel hrel heq

/-- Witness for C1 at the spec's Scenario A: `uploads/x.jpg` is
preserved and already remote; no `put` for it is issued. -/
theorem C1_no_preserved_overwrite_witness :
    isPreservedRel ["uploads/"] "uploads/x.jpg" = true ∧
      "uploads/x.jpg" ∈
        (RemoteTree.mk [⟨"a.txt", 1⟩, ⟨"uploads/x.jpg", 2⟩, ⟨"stale.txt", 3⟩] []).files.map
          (·.rel) ∧
      RemoteOp.put "uploads/x.jpg" ∉
        uploadViaFTPOps "/w" ["uploads/"] ["a.txt", "uploads/x.jpg"]
          (RemoteTree.mk [⟨"a.txt", 1⟩, ⟨"uploads/x.jpg", 2⟩, ⟨"stale.txt", 3⟩] [])
          false (fun _ => false) :=
  ⟨by decide, by decide,
    (C1_no_preserved_overwrite "/w" ["uploads/"] ["a.txt", "uploads/x.jpg"]
      (RemoteTree.mk [⟨"a.txt", 1⟩, ⟨"uploads/x.jpg", 2⟩, ⟨"stale.txt", 3⟩] []) false
      (fun _ => false) "uploads/x.jpg" (by decide) (by decide)).1⟩

/-- C2: Phase A deletes exactly the non-preserved remote files with no
local counterpart (each exactly once when the listing has no duplicate),
every delete is executed before any upload begins on both per-file
transports, and every non-preserved local file is uploaded
unconditionally — the Phase A upload list does not depend on the remote
state at all (no skip-if-unchanged check). -/
theorem C2_phaseA_authoritative
    (w : String) (prs loc : List String) (rt rt' : RemoteTree) (e : String → Bool) :
    (∀ r, r ∈ (computePlan prs loc rt).toDelete ↔
        (r ∈ rt.files.map (·.rel) ∧ isPreservedRel prs r = false ∧ r ∉ loc)) ∧
      ((rt.files.map (·.rel)).Nodup →
        ∀ r ∈ (computePlan prs loc rt).toDelete,
          (computePlan prs loc rt).toDelete.count r = 1) ∧
      (∀ i j (hi : i < (uploadViaFTPOps w prs loc rt false e).length)
          (hj : j < (uploadViaFTPOps w prs loc rt false e).length),
          ((uploadViaFTPOps w prs loc rt false e).get ⟨i, hi⟩).isRemove = true →
          ((uploadViaFTPOps w prs loc rt false e).get ⟨j, hj⟩).isPut = true → i < j) ∧
      (∀ i j (hi : i < (uploadViaSFTPOps w prs loc rt false).length)
          (hj : j < (uploadViaSFTPOps w prs loc rt false).length),
          ((uploadViaSFTPOps w prs loc rt false).get ⟨i, hi⟩).isRemove = true →
          ((uploadViaSFTPOps w prs loc rt false).get ⟨j, hj⟩).isPut = true → i < j) ∧
      (∀ f ∈ loc, isPreservedRel prs f = false →
        RemoteOp.put f ∈ uploadViaFTPOps w prs loc rt false e ∧
          RemoteOp.put (joinRemote w f) ∈ uploadViaSFTPOps w prs loc rt false) ∧
      (computePlan prs loc rt).phaseA = (computePlan prs loc rt').phaseA := by
  refine ⟨fun r => mem_toDelete, fun hnd r hr => ?_, ?_, ?_, fun f hf hP => ?_, rfl⟩
  · exact List.count_eq_one_of_mem (toDelete_nodup hnd) hr
  · exact removes_before_puts_of_eq _ _ _ (ftp_trace_split w prs loc rt e)
      (ftp_prefix_put_free w _) (ftp_suffix_remove_free prs loc rt e)
  · exact removes_before_puts_of_eq _ _ _ (sftp_trace_split w prs loc rt)
      (sftp_prefix_put_free w _) (sftp_suffix_remove_free w prs loc rt)
  · have hmem : f ∈ (computePlan prs loc rt).phaseA := mem_phaseA.mpr ⟨hf, hP⟩
    exact ⟨put_mem_uploadViaFTPOps.mpr ⟨rfl, Or.inl hmem⟩,
      put_mem_uploadViaSFTPOps.mpr ⟨rfl, f, Or.inl hmem, rfl⟩⟩

/-- Witness for C2: on Scenario A inputs, `stale.txt` is deleted exactly
once and the unchanged `a.txt` is still uploaded. -/
theorem C2_phaseA_authoritative_witness :
    (computePlan ["uploads/"] ["a.txt", "uploads/x.jpg"]
        (RemoteTree.mk [⟨"a.txt", 1⟩, ⟨"uploads/x.jpg", 2⟩, ⟨"stale.txt", 3⟩] [])).toDelete.count
      "stale.txt" = 1 ∧
    RemoteOp.put "a.txt" ∈
      uploadViaFTPOps "/w" ["uploads/"] ["a.txt", "uploads/x.jpg"]
        (RemoteTree.mk [⟨"a.txt", 1⟩, ⟨"uploads/x.jpg", 2⟩, ⟨"stale.txt", 3⟩] [])
        false (fun _ => false) :=
  ⟨(C2_phaseA_authoritative "/w" ["uploads/"] ["a.txt", "uploads/x.jpg"]
      (RemoteTree.mk [⟨"a.txt", 1⟩, ⟨"uploads/x.jpg", 2⟩, ⟨"stale.txt", 3⟩] [])
      (RemoteTree.mk [] []) (fun _ => false)).2.1 (by decide) "stale.txt" (by decide),
    ((C2_phaseA_authoritative "/w" ["uploads/"] ["a.txt", "uploads/x.jpg"]
      (RemoteTree.mk [⟨"a.txt", 1⟩, ⟨"uploads/x.jpg", 2⟩, ⟨"stale.txt", 3⟩] [])
      (RemoteTree.mk [] []) (fun _ => false)).2.2.2.2.1 "a.txt" (by decide) (by decide)).1⟩

/-- C3: a preserve-matching local file is merged in Phase B exactly when
it is absent from the full remote file set; when merged it is uploaded
exactly once (no-duplicate local listing); and against any remote tree
representing the state right after a successful run, Phase B is empty,
so an immediate re-run issues zero Phase-B uploads. -/
theorem C3_phaseB_additive
    (w : String) (prs loc : List String) (rt : RemoteTree) (e : String → Bool)
    (p : String) (hP : isPreservedRel prs p = true) (hloc : p ∈ loc) :
    (p ∈ (computePlan prs loc rt).phaseB ↔ p ∉ rt.files.map (·.rel)) ∧
      (loc.Nodup → p ∈ (computePlan prs loc rt).phaseB →
        (uploadViaFTPOps w prs loc rt false e).count (RemoteOp.put p) = 1) ∧
      (∀ rt₂ : RemoteTree,
        (∀ r, r ∈ rt₂.files.map (·.rel) ↔ r ∈ remoteAfterRun prs loc rt) →
        (computePlan prs loc rt₂).phaseB = []) := by
  refine ⟨?_, fun hnd hmem => ?_, fun rt₂ h => secondRun_phaseB_nil h⟩
  · constructor
    · exact fun h => (mem_phaseB.mp h).2.2
    · exact fun h => mem_phaseB.mpr ⟨hloc, hP, h⟩
  · rw [ftp_trace_split, List.count_append, List.count_append]
    have h3 : ([RemoteOp.connect, RemoteOp.ensureDir w, RemoteOp.cd w]).count
        (RemoteOp.put p) = 0 := rfl
    have hdel : ((computePlan prs loc rt).toDelete.map RemoteOp.remove).count
        (RemoteOp.put p) = 0 := by
      refine List.count_eq_zero.mpr (fun h => ?_)
      rcases List.mem_map.mp h with ⟨r, -, hr⟩
      cases hr
    have hA : ((computePlan prs loc rt).phaseA.flatMap (ftpUploadOpsFor false)).count
        (RemoteOp.put p) = 0 := by
      refine List.count_eq_zero.mpr (fun h => ?_)
      rcases put_mem_flatMap_ftp.mp h with ⟨-, hmemA⟩
      rw [(mem_phaseA.mp hmemA).2] at hP
      cases hP
    have hBcnt : ((computePlan prs loc rt).phaseB.flatMap (ftpUploadOpsFor false)).count
        (RemoteOp.put p) = 1 := by
      rw [count_put_flatMap_ftp]
      exact List.count_eq_one_of_mem (phaseB_nodup hnd) hmem
    have hprune : (((sortByLenDesc
        (rt.dirs.filter (fun d => !(isPreservedRel prs (d ++ "/"))))).flatMap
          (fun d => RemoteOp.listDir d ::
            (if e d then [RemoteOp.removeDir d] else []))) ++ [RemoteOp.close]).count
        (RemoteOp.put p) = 0 := by
      refine List.count_eq_zero.mpr (fun h => ?_)
      rcases List.mem_append.mp h with h | h
      · exact put_not_mem_ftpPrune h
      · simp at h
    rw [List.count_append, List.count_append, h3, hdel, hA, hBcnt, hprune]

/-- Witness for C3 at Scenario B: `uploads/y.jpg` is new locally, merged
exactly once; and the post-run tree yields an empty Phase B. -/
theorem C3_phaseB_additive_witness :
    isPreservedRel ["uploads/"] "uploads/y.jpg" = true ∧
      "uploads/y.jpg" ∈ (["a.txt", "uploads/x.jpg", "uploads/y.jpg"] : List String) ∧
      (uploadViaFTPOps "/w" ["uploads/"] ["a.txt", "uploads/x.jpg", "uploads/y.jpg"]
        (RemoteTree.mk [⟨"a.txt", 1⟩, ⟨"uploads/x.jpg", 2⟩, ⟨"stale.txt", 3⟩] [])
        false (fun _ => false)).count (RemoteOp.put "uploads/y.jpg") = 1 :=
  ⟨by decide, by decide,
    (C3_phaseB_additive "/w" ["uploads/"] ["a.txt", "uploads/x.jpg", "uploads/y.jpg"]
      (RemoteTree.mk [⟨"a.txt", 1⟩, ⟨"uploads/x.jpg", 2⟩, ⟨"stale.txt", 3⟩] [])
      (fun _ => false) "uploads/y.jpg" (by decide) (by decide)).2.1
      (by decide) (by decide)⟩

/-- C4 counterexample: with `dryRun=true` the FTP and SFTP flows still
issue the mutating-class call `ensureDir(webroot)` before listing (the
claim demands zero put, delete, mkdir/ensureDir and rmdir calls), even on
empty inputs. -/
theorem C4_dry_run_counterexample :
    (uploadViaFTPOps "/w" [] [] (RemoteTree.mk [] []) true (fun _ => false)).countP
        RemoteOp.isMutating = 1 ∧
      RemoteOp.ensureDir "/w" ∈
        uploadViaFTPOps "/w" [] [] (RemoteTree.mk [] []) true (fun _ => false) ∧
      (uploadViaSFTPOps "/w" [] [] (RemoteTree.mk [] []) true).countP
        RemoteOp.isMutating = 1 := by decide

/-- C4 (amended): with `dryRun=true` a run issues zero `put`, zero
`delete` and zero `rmdir` calls — the only mutating-class call is the
initial `ensureDir` of the webroot itself — while the plan is computed
identically, so the counts of delete and upload/merge calls a real run
performs on the same inputs equal the planned `toDelete` and
Phase A + Phase B cardinalities. -/
theorem C4_dry_run_inert_amended
    (w : String) (prs loc : List String) (rt : RemoteTree) (e : String → Bool) :
    (uploadViaFTPOps w prs loc rt true e).filter RemoteOp.isMutating =
        [RemoteOp.ensureDir w] ∧
      (uploadViaSFTPOps w prs loc rt true).filter RemoteOp.isMutating =
        [RemoteOp.ensureDir w] ∧
      ((uploadViaFTPOps w prs loc rt false e).countP RemoteOp.isRemove =
          (computePlan prs loc rt).toDelete.length ∧
        (uploadViaFTPOps w prs loc rt false e).countP RemoteOp.isPut =
          (computePlan prs loc rt).phaseA.length +
            (computePlan prs loc rt).phaseB.length) ∧
      ((uploadViaSFTPOps w prs loc rt false).countP RemoteOp.isRemove =
          (computePlan prs loc rt).toDelete.length ∧
        (uploadViaSFTPOps w prs loc rt false).countP RemoteOp.isPut =
          (computePlan prs loc rt).phaseA.length +
            (computePlan prs loc rt).phaseB.length) := by
  refine ⟨?_, ?_, ftp_real_run_counts w prs loc rt e, sftp_real_run_counts w prs loc rt⟩
  · rw [uploadViaFTPOps_dry]
    rfl
  · rw [uploadViaSFTPOps_dry]
    rfl

/-- C5 counterexample: deploy local `a.txt` to an empty remote, then
re-run against the resulting remote state: the second plan re-uploads
`a.txt` in Phase A (no skip-if-unchanged check), so it is not empty. -/
theorem C5_idempotence_counterexample :
    (computePlan [] ["a.txt"]
        (RemoteTree.mk ((remoteAfterRun [] ["a.txt"] (RemoteTree.mk [] [])).map
          (fun r => RemoteFile.mk r 0)) [])).phaseA = ["a.txt"] ∧
      ¬((computePlan [] ["a.txt"]
        (RemoteTree.mk ((remoteAfterRun [] ["a.txt"] (RemoteTree.mk [] [])).map
          (fun r => RemoteFile.mk r 0)) [])).phaseA = []) := by decide

/-- C5 (amended): an immediate re-run with unchanged local files against
the remote state produced by the previous run issues zero deletions and
zero Phase-B merges; Phase A, however, still lists every non-preserved
local file for unconditional re-upload (full-overwrite semantics), so
only the delete and merge components of the second plan are empty. -/
theorem C5_second_run_amended
    (prs loc : List String) (rt rt₂ : RemoteTree)
    (h : ∀ r, r ∈ rt₂.files.map (·.rel) ↔ r ∈ remoteAfterRun prs loc rt) :
    (computePlan prs loc rt₂).toDelete = [] ∧
      (computePlan prs loc rt₂).phaseB = [] ∧
      (computePlan prs loc rt₂).phaseA =
        loc.filter (fun f => !(isPreservedRel prs f)) :=
  ⟨secondRun_toDelete_nil h, secondRun_phaseB_nil h, rfl⟩

/-- Witness for the amended C5 on Scenario-A-like inputs. -/
theorem C5_second_run_amended_witness :
    (computePlan ["uploads/"] ["a.txt", "uploads/y.jpg"]
        (RemoteTree.mk ((remoteAfterRun ["uploads/"] ["a.txt", "uploads/y.jpg"]
          (RemoteTree.mk [⟨"stale.txt", 3⟩] [])).map (fun r => RemoteFile.mk r 0))
          [])).toDelete = [] ∧
      (computePlan ["uploads/"] ["a.txt", "uploads/y.jpg"]
        (RemoteTree.mk ((remoteAfterRun ["uploads/"] ["a.txt", "uploads/y.jpg"]
          (RemoteTree.mk [⟨"stale.txt", 3⟩] [])).map (fun r => RemoteFile.mk r 0))
          [])).phaseB = [] :=
  ⟨(C5_second_run_amended ["uploads/"] ["a.txt", "uploads/y.jpg"]
      (RemoteTree.mk [⟨"stale.txt", 3⟩] [])
      (RemoteTree.mk ((remoteAfterRun ["uploads/"] ["a.txt", "uploads/y.jpg"]
        (RemoteTree.mk [⟨"stale.txt", 3⟩] [])).map (fun r => RemoteFile.mk r 0)) [])
      (fun _ => Iff.rfl)).1,
    (C5_second_run_amended ["uploads/"] ["a.txt", "uploads/y.jpg"]
      (RemoteTree.mk [⟨"stale.txt", 3⟩] [])
      (RemoteTree.mk ((remoteAfterRun ["uploads/"] ["a.txt", "uploads/y.jpg"]
        (RemoteTree.mk [⟨"stale.txt", 3⟩] [])).map (fun r => RemoteFile.mk r 0)) [])
      (fun _ => Iff.rfl)).2.1⟩

/-- C6 counterexample: the deploy script's rollback moves the bad
webroot aside and then EXTRACTS the backup tarball into the parent
directory; no operation renames anything back to the webroot path, so
the restore step is an archive copy, not a snapshot rename-swap. -/
theorem C6_rollback_counterexample :
    ShellOp.tarExtract "/home/u/backups/site-1.tar.gz" "/home/u/web/d" ∈
        rollbackOps "/home/u/web/d/public_html" "/home/u/backups/site-1.tar.gz"
          "20250101-000000" true ∧
      movesInto "/home/u/web/d/public_html"
        (rollbackOps "/home/u/web/d/public_html" "/home/u/backups/site-1.tar.gz"
          "20250101-000000" true) = false := by decide

/-- C6 (amended): when the health check fails on a real run with
rollback enabled, the script runs `rollback`, whose first action renames
the bad webroot to the failed path; the pre-deploy state is then
restored by recreating the webroot's parent and extracting the backup
tar.gz into it — every rename in the rollback moves the bad webroot
aside, none restores the snapshot — and the failed tree is removed
exactly when keeping it is disabled. -/
theorem C6_rollback_amended (webroot backupPath releaseId remoteZip filterRemote
    releaseDir : String) (keep : Bool) :
    postDeployOps false false true keep webroot backupPath releaseId remoteZip
        filterRemote releaseDir = rollbackOps webroot backupPath releaseId keep ∧
      (rollbackOps webroot backupPath releaseId keep).head? =
        some (ShellOp.move webroot (failedDir webroot releaseId)) ∧
      ShellOp.tarExtract backupPath (shellStripLast webroot) ∈
        rollbackOps webroot backupPath releaseId keep ∧
      (∀ src dst, ShellOp.move src dst ∈ rollbackOps webroot backupPath releaseId keep →
        src = webroot ∧ dst = failedDir webroot releaseId) ∧
      (ShellOp.removeTree (failedDir webroot releaseId) ∈
          rollbackOps webroot backupPath releaseId keep ↔ keep = false) := by
  refine ⟨rfl, rfl, ?_, ?_, ?_⟩
  · unfold rollbackOps
    simp
  · intro src dst hmem
    unfold rollbackOps at hmem
    rcases List.mem_append.mp hmem with h | h
    · simp at h
      exact h
    · split at h <;> simp at h
  · unfold rollbackOps
    cases keep <;> simp

/-- Witness for the amended C6: the only rename of the rollback is the
move of the webroot to the failed path. -/
theorem C6_rollback_amended_witness :
    ShellOp.move "/home/u/web/d/public_html" "/home/u/web/d/public_html.failed-1" ∈
        rollbackOps "/home/u/web/d/public_html" "/b.tar.gz" "1" false ∧
      "/home/u/web/d/public_html" = "/home/u/web/d/public_html" ∧
      "/home/u/web/d/public_html.failed-1" =
        failedDir "/home/u/web/d/public_html" "1" :=
  ⟨by decide,
    (C6_rollback_amended "/home/u/web/d/public_html" "/b.tar.gz" "1" "" "" "" false).2.2.2.1
      "/home/u/web/d/public_html" "/home/u/web/d/public_html.failed-1" (by decide)⟩

/-- C7 counterexample: `uploadViaFTP` DOES infer the webroot: with no
explicit webroot but a domain, it derives
`/home/<user>/web/<domain>/public_html` instead of failing. -/
theorem C7_ftp_webroot_counterexample :
    ftpResolveWebroot none "alice" (some "example.com") =
      Except.ok "/home/alice/web/example.com/public_html" := rfl

/-- C7 (amended): all three transports derive the webroot as
`/home/<user>/web/<domain>/public_html` when it is not explicitly given —
the FTP transport included, both inside `uploadViaFTP`/`restoreViaFTP`
and in the CLI's `autoWebroot` fallback; the FTP flows fail only when
webroot and domain are both missing. -/
theorem C7_webroot_inference_amended (w u d : String) (od : Option String) :
    ftpResolveWebroot (some w) u od = Except.ok w ∧
      ftpResolveWebroot none u (some d) = Except.ok (deriveDefaultWebrootFTP u d) ∧
      ftpResolveWebroot none u none =
        Except.error
          "webroot not provided and cannot derive it: set either webroot or domain in your config." ∧
      (¬(u = "") → strTrim u = u →
        deriveDefaultWebrootFTP u d = deriveDefaultWebrootSFTP u d ∧
          deriveDefaultWebrootFTP u d = shellWebroot none u d) ∧
      (¬(u = "") → ¬(d = "") →
        autoWebroot (some u) (some d) = some (deriveDefaultWebrootSFTP u d)) := by
  refine ⟨rfl, rfl, rfl, fun h1 h2 => ?_, fun h1 h2 => ?_⟩
  · unfold deriveDefaultWebrootFTP deriveDefaultWebrootSFTP shellWebroot
    rw [if_neg h1, h2]
    exact ⟨rfl, rfl⟩
  · unfold autoWebroot deriveDefaultWebrootSFTP
    simp [h1, h2]

/-- Witness for the amended C7 at a concrete user and domain. -/
theorem C7_webroot_inference_amended_witness :
    ¬(("alice" : String) = "") ∧ strTrim "alice" = "alice" ∧
      deriveDefaultWebrootFTP "alice" "example.com" =
        deriveDefaultWebrootSFTP "alice" "example.com" :=
  ⟨by decide, by decide,
    ((C7_webroot_inference_amended "/w" "alice" "example.com" none).2.2.2.1
      (by decide) (by decide)).1⟩

/-- C8 counterexample: on FTP the configured concurrency is ignored —
`uploadViaFTP` passes `effConc = 1` to the pool, so with the default
configuration of 4 the effective pool size is 1, not
`max(1, min(16, 4)) = 4`. -/
theorem C8_concurrency_counterexample :
    ftpPoolLimit 4 = 1 ∧ ¬(ftpPoolLimit 4 = max 1 (min 16 (4 : Int))) := by decide

/-- C8 (amended): the SFTP transport honours the configured concurrency
through `max(1, min(16, c))` — identity on 1..16, clamped to that range
otherwise, with default 4 giving 4 — while the FTP transport always runs
its upload pool with an effective limit of 1. -/
theorem C8_concurrency_amended (c : Int) :
    ftpPoolLimit c = 1 ∧
      (1 ≤ c → c ≤ 16 → sftpPoolLimit c = c) ∧
      1 ≤ sftpPoolLimit c ∧ sftpPoolLimit c ≤ 16 ∧
      sftpPoolLimit 4 = 4 := by
  refine ⟨rfl, fun h1 h2 => ?_, ?_, ?_, rfl⟩ <;>
    unfold sftpPoolLimit uploadManyLimit <;> omega

/-- Witness for the amended C8 at the default configuration. -/
theorem C8_concurrency_amended_witness :
    (1 : Int) ≤ 4 ∧ (4 : Int) ≤ 16 ∧ sftpPoolLimit 4 = 4 :=
  ⟨by decide, by decide,
    (C8_concurrency_amended 4).2.1 (by decide) (by decide)⟩

theorem maybeConfirm_noninteractive {confirm : ConfirmMode} {ans : String}
    (hc : ¬(confirm = ConfirmMode.never)) :
    maybeConfirm confirm false false ans =
      Except.error "Non-interactive session. Pass --yes (or YES=1) to proceed." := by
  cases confirm
  · rfl
  · rfl
  · exact absurd rfl hc

/-- C9 counterexample: a non-interactive `restoreViaSFTP` run without
consent (confirm mode `auto`) does throw, but only AFTER the SFTP
connection has been opened — the flow connects (and would fetch the
remote backup) before calling the confirmation gate. -/
theorem C9_confirm_gate_counterexample :
    (restoreViaSFTPRun ConfirmMode.auto false false "" false "" "" "/w" [] []
        (RemoteTree.mk [] []) false).err.isSome = true ∧
      RemoteOp.connect ∈ (restoreViaSFTPRun ConfirmMode.auto false false "" false "" ""
        "/w" [] [] (RemoteTree.mk [] []) false).ops := by decide

/-- C9 (amended): in a non-interactive session without a consent flag,
every confirm mode other than `never` throws the actionable
"Non-interactive session" error before any MUTATION is attempted; the
FTP deploy/restore and SFTP deploy flows throw before any remote call at
all, while the SFTP restore flow has already opened its connection (and
possibly fetched the backup archive) — never more than that — when the
gate fires.  With confirm mode `never`, every flow proceeds
unconditionally and no prompt is shown. -/
theorem C9_confirm_gate_amended
    (confirm : ConfirmMode) (yes : Bool) (ans : String)
    (useRemote : Bool) (bdir bfile w : String) (prs loc : List String)
    (rt : RemoteTree) (dry : Bool) (e : String → Bool) :
    (¬(confirm = ConfirmMode.never) → yes = false →
      (uploadViaFTPRun confirm false yes ans w prs loc rt dry e).ops = [] ∧
        (uploadViaFTPRun confirm false yes ans w prs loc rt dry e).err.isSome = true ∧
        (uploadViaSFTPRun confirm false yes ans w prs loc rt dry).ops = [] ∧
        (uploadViaSFTPRun confirm false yes ans w prs loc rt dry).err.isSome = true ∧
        (restoreViaFTPRun confirm false yes ans w prs loc rt dry).ops = [] ∧
        (restoreViaFTPRun confirm false yes ans w prs loc rt dry).err.isSome = true ∧
        (restoreViaSFTPRun confirm false yes ans useRemote bdir bfile w prs loc rt
          dry).err.isSome = true ∧
        (∀ op ∈ (restoreViaSFTPRun confirm false yes ans useRemote bdir bfile w prs loc rt
          dry).ops, op.isMutating = false)) ∧
    (confirm = ConfirmMode.never →
      ∀ interactive yes' : Bool,
        maybeConfirm confirm interactive yes' ans = Except.ok false ∧
        (uploadViaFTPRun confirm interactive yes' ans w prs loc rt dry e).err = none ∧
        (uploadViaSFTPRun confirm interactive yes' ans w prs loc rt dry).err = none ∧
        (restoreViaFTPRun confirm interactive yes' ans w prs loc rt dry).err = none ∧
        (restoreViaSFTPRun confirm interactive yes' ans useRemote bdir bfile w prs loc rt
          dry).err = none) := by
  constructor
  · intro hc hy
    subst hy
    have hmc := @maybeConfirm_noninteractive confirm ans hc
    refine ⟨?_, ?_, ?_, ?_, ?_, ?_, ?_, ?_⟩
    · simp [uploadViaFTPRun, hmc]
    · simp [uploadViaFTPRun, hmc]
    · simp [uploadViaSFTPRun, hmc]
    · simp [uploadViaSFTPRun, hmc]
    · simp [restoreViaFTPRun, hmc]
    · simp [restoreViaFTPRun, hmc]
    · simp [restoreViaSFTPRun, hmc]
    · intro op hop
      simp only [restoreViaSFTPRun, hmc] at hop
      rcases List.mem_cons.mp hop with h | h
      · subst h; rfl
      · split at h
        · rcases List.mem_cons.mp h with h1 | h1
          · subst h1; rfl
          · rcases List.mem_cons.mp h1 with h2 | h2
            · subst h2; rfl
            · cases h2
        · cases h
  · intro hc interactive yes'
    subst hc
    exact ⟨rfl, rfl, rfl, rfl, rfl⟩

/-- Witness for the amended C9: confirm mode `auto`, non-interactive,
no consent flag — the FTP deploy issues nothing and errors, while the
SFTP restore has already connected. -/
theorem C9_confirm_gate_amended_witness :
    ¬(ConfirmMode.auto = ConfirmMode.never) ∧
      (uploadViaFTPRun ConfirmMode.auto false false "" "/w" [] []
        (RemoteTree.mk [] []) false (fun _ => false)).ops = [] :=
  ⟨by decide,
    ((C9_confirm_gate_amended ConfirmMode.auto false "" false "" "" "/w" [] []
      (RemoteTree.mk [] []) false (fun _ => false)).1 (by decide) rfl).1⟩

/-- C10: with no preserve rules configured, every transport defaults to
exactly `["uploads/", "storage/", ".well-known/", "robots.txt"]` — the
TypeScript flows through the destructuring default, the shell scripts
through the `PRESERVE_NL` fallback (including when the wrapper passes an
empty string) — and under those default rules a matching path is never
deleted and never uploaded in authoritative Phase A. -/
theorem C10_default_preserves
    (loc : List String) (rt : RemoteTree) (r : String)
    (hP : isPreservedRel (defaultPreservePaths.map normalizeRel) r = true) :
    effectivePreservePaths none =
        ["uploads/", "storage/", ".well-known/", "robots.txt"] ∧
      shellPreservePaths none =
        ["uploads/", "storage/", ".well-known/", "robots.txt"] ∧
      shellPreservePaths (some "") =
        ["uploads/", "storage/", ".well-known/", "robots.txt"] ∧
      r ∉ (computePlan (defaultPreservePaths.map normalizeRel) loc rt).toDelete ∧
      r ∉ (computePlan (defaultPreservePaths.map normalizeRel) loc rt).phaseA := by
  refine ⟨rfl, rfl, rfl, fun h => ?_, fun h => ?_⟩
  · rw [(mem_toDelete.mp h).2.1] at hP
    cases hP
  · rw [(mem_phaseA.mp h).2] at hP
    cases hP

/-- Witness for C10: `uploads/pic.jpg` matches the default rules and is
excluded from deletion. -/
theorem C10_default_preserves_witness :
    isPreservedRel (defaultPreservePaths.map normalizeRel) "uploads/pic.jpg" = true ∧
      "uploads/pic.jpg" ∉
        (computePlan (defaultPreservePaths.map normalizeRel) []
          (RemoteTree.mk [⟨"uploads/pic.jpg", 9⟩] [])).toDelete :=
  ⟨by decide,
    (C10_default_preserves [] (RemoteTree.mk [⟨"uploads/pic.jpg", 9⟩] [])
      "uploads/pic.jpg" (by decide)).2.2.2.1⟩

end Zipper
